import Mathlib

/-!
# Verification of `a5utils.py` (Face-Morphing-Swapping)

Shallow embedding of the bilinear sampler `bilinear_interpolate` and of the
interactive point picker `SelectPoints` from `src/a5utils.py`, together with
theorems settling the specification claims.

Conventions:
* Field values and coordinates are rationals (`ℚ`), modelling the exact
  arithmetic the spec reasons in.
* A field of shape `H × W` is a function `ℕ → ℕ → ℚ` giving the value at
  `(row, col)`; all lookups performed by the sampler are clamped into
  `[0, H-1] × [0, W-1]`, so only those entries matter.
* `np.clip(v, lo, hi)` is `min (max v lo) hi` (numpy clips to `lo` first,
  then to `hi`).
-/

/-- `np.clip(v, lo, hi)` on integers: `np.minimum(np.maximum(v, lo), hi)`. -/
def clip (v lo hi : ℤ) : ℤ := min (max v lo) hi

/-- One point of `bilinear_interpolate` (src/a5utils.py lines 28–53).
The Python assigns `x0 = np.floor(x).astype(int)`, `x1 = x0 + 1` (same for y),
then **reassigns** `x0, x1, y0, y1` to their `np.clip`-ed values, so both the
four corner lookups and the four weights `wa, wb, wc, wd` are computed from the
clipped indices.  The sequential `let`-shadowing below mirrors that
reassignment. -/
def bilinear_interpolate_point (H W : ℕ) (image : ℕ → ℕ → ℚ) (x y : ℚ) : ℚ :=
  let x0 : ℤ := ⌊x⌋
  let x1 : ℤ := x0 + 1
  let y0 : ℤ := ⌊y⌋
  let y1 : ℤ := y0 + 1
  let x0 : ℤ := clip x0 0 ((W : ℤ) - 1)
  let x1 : ℤ := clip x1 0 ((W : ℤ) - 1)
  let y0 : ℤ := clip y0 0 ((H : ℤ) - 1)
  let y1 : ℤ := clip y1 0 ((H : ℤ) - 1)
  let Ia : ℚ := image y0.toNat x0.toNat
  let Ib : ℚ := image y1.toNat x0.toNat
  let Ic : ℚ := image y0.toNat x1.toNat
  let Id : ℚ := image y1.toNat x1.toNat
  let wa : ℚ := ((x1 : ℚ) - x) * ((y1 : ℚ) - y)
  let wb : ℚ := ((x1 : ℚ) - x) * (y - (y0 : ℚ))
  let wc : ℚ := (x - (x0 : ℚ)) * ((y1 : ℚ) - y)
  let wd : ℚ := (x - (x0 : ℚ)) * (y - (y0 : ℚ))
  Ia * wa + Ib * wb + Ic * wc + Id * wd

/-- The batch form of `bilinear_interpolate`: every numpy operation in the
source (floor, `+1`, clip, fancy indexing, elementwise `*`, `+`) acts
elementwise on the coordinate arrays, so the batch result is the pointwise
sampler zipped over the two coordinate lists. -/
def bilinear_interpolate (H W : ℕ) (image : ℕ → ℕ → ℚ) (x y : List ℚ) :
    List ℚ :=
  List.zipWith (bilinear_interpolate_point H W image) x y

/-- The 2×2 example field `[[0,1],[2,3]]` from the spec (row 0 = `[0,1]`). -/
def field2x2 : ℕ → ℕ → ℚ := fun i j =>
  if i = 0 then (if j = 0 then 0 else 1) else (if j = 0 then 2 else 3)

/-- The 1×1 example field `[[5]]` from the spec. -/
def field1x1 : ℕ → ℕ → ℚ := fun _ _ => 5

/-- The decomposition asserted by the spec for claim C1: the four corner
lookups use the **clamped** indices while the four weights use the
**pre-clamp** integer values `x0 = ⌊x⌋`, `x1 = x0 + 1`, `y0 = ⌊y⌋`,
`y1 = y0 + 1`.  This definition follows the spec's words and is compared
against `bilinear_interpolate_point`, which follows the source. -/
def bilinear_formula_unclamped_weights (H W : ℕ) (image : ℕ → ℕ → ℚ)
    (x y : ℚ) : ℚ :=
  let x0 : ℤ := ⌊x⌋
  let x1 : ℤ := x0 + 1
  let y0 : ℤ := ⌊y⌋
  let y1 : ℤ := y0 + 1
  let x0c : ℤ := clip x0 0 ((W : ℤ) - 1)
  let x1c : ℤ := clip x1 0 ((W : ℤ) - 1)
  let y0c : ℤ := clip y0 0 ((H : ℤ) - 1)
  let y1c : ℤ := clip y1 0 ((H : ℤ) - 1)
  image y0c.toNat x0c.toNat * (((x1 : ℚ) - x) * ((y1 : ℚ) - y)) +
    image y1c.toNat x0c.toNat * (((x1 : ℚ) - x) * (y - (y0 : ℚ))) +
    image y0c.toNat x1c.toNat * ((x - (x0 : ℚ)) * ((y1 : ℚ) - y)) +
    image y1c.toNat x1c.toNat * ((x - (x0 : ℚ)) * (y - (y0 : ℚ)))

/-- The decomposition the source actually computes: the **clamped** integer
indices are used both for the four corner lookups and inside the four
weights (the Python reassigns `x0, x1, y0, y1` to their clipped values
before the weights are formed). -/
def bilinear_formula_clamped_weights (H W : ℕ) (image : ℕ → ℕ → ℚ)
    (x y : ℚ) : ℚ :=
  let x0c : ℤ := clip ⌊x⌋ 0 ((W : ℤ) - 1)
  let x1c : ℤ := clip (⌊x⌋ + 1) 0 ((W : ℤ) - 1)
  let y0c : ℤ := clip ⌊y⌋ 0 ((H : ℤ) - 1)
  let y1c : ℤ := clip (⌊y⌋ + 1) 0 ((H : ℤ) - 1)
  image y0c.toNat x0c.toNat * (((x1c : ℚ) - x) * ((y1c : ℚ) - y)) +
    image y1c.toNat x0c.toNat * (((x1c : ℚ) - x) * (y - (y0c : ℚ))) +
    image y0c.toNat x1c.toNat * ((x - (x0c : ℚ)) * ((y1c : ℚ) - y)) +
    image y1c.toNat x1c.toNat * ((x - (x0c : ℚ)) * (y - (y0c : ℚ)))

/-- The sampler's inputs, viewed as the mutable store the Python call sees:
the image array and the two coordinate arrays. -/
structure SamplerEnv where
  H : ℕ
  W : ℕ
  image : ℕ → ℕ → ℚ
  xs : List ℚ
  ys : List ℚ

/-- `bilinear_interpolate` as a store transformer returning the updated store
together with the result.  The source body is a straight-line composition of
non-mutating numpy operations (`np.floor`, `+`, `np.clip`, fancy indexing,
elementwise `*` and `+`, each of which allocates a fresh array), performs no
I/O, and never assigns to `image`, `x` or `y`, so the store passes through
unchanged. -/
def bilinear_interpolate_run (env : SamplerEnv) : SamplerEnv × List ℚ :=
  (env, bilinear_interpolate env.H env.W env.image env.xs env.ys)

/-- The mutable state of a `SelectPoints` instance (src/a5utils.py lines
88–117): the recorded click coordinates `xs`, `ys`, and whether the
`button_press_event` connection `cid` is still live.  The purely visual
state (the plotted dots and the numbered text labels) is display output and
is not modelled. -/
structure SPState where
  xs : List ℚ
  ys : List ℚ
  connected : Bool
deriving DecidableEq

/-- A `button_press_event`: the identifier of the axes the click landed in
(`event.inaxes`) and the data coordinates (`event.xdata`, `event.ydata`). -/
structure ClickEvent where
  inaxes : ℕ
  xdata : ℚ
  ydata : ℚ
deriving DecidableEq

/-- The state after `SelectPoints.__init__`: empty point lists and a live
connection (`mpl_connect` has been called). -/
def SelectPoints_init : SPState := ⟨[], [], true⟩

/-- `SelectPoints.__call__` (src/a5utils.py lines 102–117) as a step
function on the state, with `axId` the identifier of the instance's axes and
`npoints` its target count.  The canvas delivers `button_press_event`s to
the handler only while `cid` is connected, so an event arriving after
`mpl_disconnect` leaves the state unchanged.  Otherwise: a click outside the
instance's axes returns immediately; an accepted click appends its
coordinates to `xs` and `ys`, and once `len(xs) >= npoints` the handler
disconnects itself. -/
def SelectPoints_call (axId npoints : ℕ) (s : SPState) (e : ClickEvent) :
    SPState :=
  if s.connected = false then s
  else if e.inaxes ≠ axId then s
  else
    let xs := s.xs ++ [e.xdata]
    let ys := s.ys ++ [e.ydata]
    if npoints ≤ xs.length then { xs := xs, ys := ys, connected := false }
    else { xs := xs, ys := ys, connected := s.connected }

/-- Run a `SelectPoints` instance from its initial state over a sequence of
click events. -/
def SelectPoints_run (axId npoints : ℕ) (events : List ClickEvent) :
    SPState :=
  events.foldl (SelectPoints_call axId npoints) SelectPoints_init

/-- The inductive invariant of `SelectPoints`: the recorded count never
exceeds the target, and while the handler is still connected the count is
strictly below the target. -/
def SPInv (npoints : ℕ) (s : SPState) : Prop :=
  s.xs.length ≤ npoints ∧ (s.connected = true → s.xs.length < npoints)

/-- `clip` is the identity on values already inside `[lo, hi]`. -/
theorem clip_eq_self {v lo hi : ℤ} (h1 : lo ≤ v) (h2 : v ≤ hi) :
    clip v lo hi = v := by
  simp [clip]
  omega

/-- If the two clipped x-indices coincide, the sampler returns `0`: the two
x-offset factors `(x1c - x)` and `(x - x0c)` are exact negations, the paired
corner values coincide, and every contribution cancels. -/
theorem collapse_x_eq_zero (H W : ℕ) (image : ℕ → ℕ → ℚ) (x y : ℚ)
    (hx : clip ⌊x⌋ 0 ((W : ℤ) - 1) = clip (⌊x⌋ + 1) 0 ((W : ℤ) - 1)) :
    bilinear_interpolate_point H W image x y = 0 := by
  simp only [bilinear_interpolate_point]
  rw [← hx]
  ring

/-- If the two clipped y-indices coincide, the sampler returns `0`. -/
theorem collapse_y_eq_zero (H W : ℕ) (image : ℕ → ℕ → ℚ) (x y : ℚ)
    (hy : clip ⌊y⌋ 0 ((H : ℤ) - 1) = clip (⌊y⌋ + 1) 0 ((H : ℤ) - 1)) :
    bilinear_interpolate_point H W image x y = 0 := by
  simp only [bilinear_interpolate_point]
  rw [← hy]
  ring

/-- C1 counterexample: the claim "`bilinear_interpolate` equals the sum of
clamped-index lookups weighted by unclamped-offset weights" fails at the
1×1 field `[[5]]` with query `(10, 10)`: the code returns `0` (its weights
use the clipped indices, which collapse and cancel), while the spec's
unclamped-weight formula gives `5`. -/
theorem C1_counterexample :
    bilinear_interpolate 1 1 field1x1 [10] [10] = [0] ∧
      bilinear_formula_unclamped_weights 1 1 field1x1 10 10 = 5 ∧
      bilinear_interpolate_point 1 1 field1x1 10 10 ≠
        bilinear_formula_unclamped_weights 1 1 field1x1 10 10 := by
  refine ⟨?_, ?_, ?_⟩ <;>
    norm_num [bilinear_interpolate, bilinear_interpolate_point,
      bilinear_formula_unclamped_weights, clip, field1x1]

/-- C1 amended: for every field and every query point, the value returned by
`bilinear_interpolate` equals the sum over the four corners of the
clamped-index lookup weighted by the **clamped**-offset weight — the source
reassigns `x0, x1, y0, y1` to their clipped values before computing the
weights, so the clamped indices are used both for the lookups and in the
weight formulas. -/
theorem C1_clamped_weights_decomposition (H W : ℕ) (image : ℕ → ℕ → ℚ)
    (x y : ℚ) :
    bilinear_interpolate_point H W image x y =
      bilinear_formula_clamped_weights H W image x y := rfl

/-- C2 counterexample: at the far-border grid point `(x = 1, y = 1)` of the
2×2 field `[[0,1],[2,3]]`, the code returns `0`, not `field[1,1] = 3`:
`x1 = y1 = 2` are clipped down to `1`, so all four weights contain the factor
`(1 - 1) = 0`. -/
theorem C2_counterexample :
    bilinear_interpolate 2 2 field2x2 [1] [1] = [0] ∧
      field2x2 1 1 = 3 ∧
      bilinear_interpolate_point 2 2 field2x2 1 1 ≠ field2x2 1 1 := by
  refine ⟨?_, ?_, ?_⟩ <;>
    norm_num [bilinear_interpolate, bilinear_interpolate_point, clip, field2x2]

/-- C2 amended: exactness at grid points holds only strictly before the far
border: for every field and all naturals `i, j` with `i + 1 < H` and
`j + 1 < W`, sampling at `(x = j, y = i)` returns `field[i, j]` exactly
(in particular `(0,0)` on the 2×2 field returns `field[0,0] = 0`); at the far
border `x = W - 1` or `y = H - 1` the result is `0` instead, so the claimed
`sample(field,[1],[1]) = 3` on the 2×2 field fails. -/
theorem C2_grid_exactness (H W : ℕ) (image : ℕ → ℕ → ℚ) (i j : ℕ)
    (hi : i + 1 < H) (hj : j + 1 < W) :
    bilinear_interpolate_point H W image (j : ℚ) (i : ℚ) = image i j := by
  simp only [bilinear_interpolate_point]
  rw [Int.floor_natCast, Int.floor_natCast]
  rw [clip_eq_self (by omega) (by omega), clip_eq_self (by omega) (by omega),
    clip_eq_self (by omega) (by omega), clip_eq_self (by omega) (by omega)]
  have hj1 : ((j : ℤ) + 1).toNat = j + 1 := by omega
  have hi1 : ((i : ℤ) + 1).toNat = i + 1 := by omega
  rw [hj1, hi1, Int.toNat_natCast, Int.toNat_natCast]
  push_cast
  ring

/-- C2 witness: the amended exactness theorem applied at the in-range grid
point `(0, 0)` of the 2×2 field. -/
theorem C2_grid_exactness_witness :
    0 + 1 < 2 ∧ bilinear_interpolate_point 2 2 field2x2 0 0 = field2x2 0 0 :=
  ⟨by norm_num,
    C2_grid_exactness 2 2 field2x2 0 0 (by norm_num) (by norm_num)⟩

/-- C3 counterexample: for the 1×1 field `[[5]]`, sampling at `(10, 10)`
returns `0`, not the nearest edge pixel's value `5`: all four corner indices
clamp to the single cell, and because the weights are computed from the
clipped indices they cancel exactly. -/
theorem C3_counterexample :
    bilinear_interpolate 1 1 field1x1 [10] [10] = [0] ∧
      field1x1 0 0 = 5 ∧
      bilinear_interpolate_point 1 1 field1x1 10 10 ≠ field1x1 0 0 := by
  refine ⟨?_, ?_, ?_⟩ <;>
    norm_num [bilinear_interpolate, bilinear_interpolate_point, clip, field1x1]

/-- C3 amended: when the query point lies far enough outside the grid that
all four clamped corner indices coincide on one border cell, the returned
value is `0`, regardless of that cell's value (not the cell's value, as
claimed): the weights are computed from the clipped indices, so the four
contributions cancel exactly. -/
theorem C3_collapsed_corners_zero (H W : ℕ) (image : ℕ → ℕ → ℚ) (x y : ℚ)
    (hx : clip ⌊x⌋ 0 ((W : ℤ) - 1) = clip (⌊x⌋ + 1) 0 ((W : ℤ) - 1))
    (_hy : clip ⌊y⌋ 0 ((H : ℤ) - 1) = clip (⌊y⌋ + 1) 0 ((H : ℤ) - 1)) :
    bilinear_interpolate_point H W image x y = 0 :=
  collapse_x_eq_zero H W image x y hx

/-- C3 witness: the amended theorem applied to the 1×1 field `[[5]]` at
`(10, 10)`, where all four corners clamp to the single cell. -/
theorem C3_collapsed_corners_zero_witness :
    clip ⌊(10 : ℚ)⌋ 0 (((1 : ℕ) : ℤ) - 1) =
        clip (⌊(10 : ℚ)⌋ + 1) 0 (((1 : ℕ) : ℤ) - 1) ∧
      bilinear_interpolate_point 1 1 field1x1 10 10 = 0 :=
  ⟨by norm_num [clip],
    C3_collapsed_corners_zero 1 1 field1x1 10 10 (by norm_num [clip])
      (by norm_num [clip])⟩

/-- C4: degenerate zero on and beyond the far border — for every field with
`H ≥ 1` and `W ≥ 1`, a query point with `x < 0` or `x ≥ W - 1` (or `y < 0`
or `y ≥ H - 1`) samples to exactly `0` regardless of the field's contents:
after clipping, the two indices on that axis coincide, the two offset
factors are exact negations, and every weight contribution cancels.  In
particular every sample from a 1-row or 1-column field is `0`. -/
theorem C4_degenerate_zero (H W : ℕ) (image : ℕ → ℕ → ℚ) (x y : ℚ)
    (hH : 1 ≤ H) (hW : 1 ≤ W)
    (h : x < 0 ∨ (W : ℚ) - 1 ≤ x ∨ y < 0 ∨ (H : ℚ) - 1 ≤ y) :
    bilinear_interpolate_point H W image x y = 0 := by
  rcases h with h | h | h | h
  · have hfx : ⌊x⌋ < 0 := by
      rw [Int.floor_lt]
      exact_mod_cast h
    exact collapse_x_eq_zero H W image x y (by simp [clip]; omega)
  · have hfx : (W : ℤ) - 1 ≤ ⌊x⌋ := by
      rw [Int.le_floor]
      push_cast
      exact h
    exact collapse_x_eq_zero H W image x y (by simp [clip]; omega)
  · have hfy : ⌊y⌋ < 0 := by
      rw [Int.floor_lt]
      exact_mod_cast h
    exact collapse_y_eq_zero H W image x y (by simp [clip]; omega)
  · have hfy : (H : ℤ) - 1 ≤ ⌊y⌋ := by
      rw [Int.le_floor]
      push_cast
      exact h
    exact collapse_y_eq_zero H W image x y (by simp [clip]; omega)

/-- C4 witness: the 2×2 field sampled at `(x = -3, y = 1/2)` gives `0`. -/
theorem C4_degenerate_zero_witness :
    1 ≤ 2 ∧ (-3 : ℚ) < 0 ∧
      bilinear_interpolate_point 2 2 field2x2 (-3) (1/2) = 0 :=
  ⟨by norm_num, by norm_num,
    C4_degenerate_zero 2 2 field2x2 (-3) (1/2) (by norm_num) (by norm_num)
      (Or.inl (by norm_num))⟩

/-- C5: interior linearity — for a field whose cell values are the plane
`a*row + b*col + c` and any query point strictly inside the grid
(`0 < x < W - 1`, `0 < y < H - 1`) with fractional coordinates, the sampler
returns exactly `a*y + b*x + c`: strictly interior points are never clipped,
so the standard bilinear weights reproduce the affine plane exactly. -/
theorem C5_interior_linearity (H W : ℕ) (a b c : ℚ) (x y : ℚ)
    (hx0 : 0 < x) (hx1 : x < (W : ℚ) - 1)
    (hy0 : 0 < y) (hy1 : y < (H : ℚ) - 1)
    (_hxf : (⌊x⌋ : ℚ) ≠ x) (_hyf : (⌊y⌋ : ℚ) ≠ y) :
    bilinear_interpolate_point H W
        (fun r col => a * (r : ℚ) + b * (col : ℚ) + c) x y
      = a * y + b * x + c := by
  have hfx0 : 0 ≤ ⌊x⌋ := Int.floor_nonneg.2 hx0.le
  have hfy0 : 0 ≤ ⌊y⌋ := Int.floor_nonneg.2 hy0.le
  have hfx1 : ⌊x⌋ < (W : ℤ) - 1 := by
    rw [Int.floor_lt]
    push_cast
    exact hx1
  have hfy1 : ⌊y⌋ < (H : ℤ) - 1 := by
    rw [Int.floor_lt]
    push_cast
    exact hy1
  simp only [bilinear_interpolate_point]
  rw [clip_eq_self (by omega) (by omega), clip_eq_self (by omega) (by omega),
    clip_eq_self (by omega) (by omega), clip_eq_self (by omega) (by omega)]
  have hcx : ((⌊x⌋.toNat : ℚ)) = (⌊x⌋ : ℚ) := by
    exact_mod_cast congrArg (Int.cast : ℤ → ℚ) (Int.toNat_of_nonneg hfx0)
  have hcy : ((⌊y⌋.toNat : ℚ)) = (⌊y⌋ : ℚ) := by
    exact_mod_cast congrArg (Int.cast : ℤ → ℚ) (Int.toNat_of_nonneg hfy0)
  have hcx1 : (((⌊x⌋ + 1).toNat : ℚ)) = (⌊x⌋ : ℚ) + 1 := by
    have : (⌊x⌋ + 1).toNat = ⌊x⌋.toNat + 1 := by omega
    rw [this]
    push_cast [hcx]
    ring
  have hcy1 : (((⌊y⌋ + 1).toNat : ℚ)) = (⌊y⌋ : ℚ) + 1 := by
    have : (⌊y⌋ + 1).toNat = ⌊y⌋.toNat + 1 := by omega
    rw [this]
    push_cast [hcy]
    ring
  rw [hcx, hcy, hcx1, hcy1]
  push_cast
  ring

/-- C5 witness: the plane `1*row + 2*col + 3` on a 4×4 grid sampled at the
interior fractional point `(3/2, 3/2)` gives `1*(3/2) + 2*(3/2) + 3`. -/
theorem C5_interior_linearity_witness :
    (0 : ℚ) < 3/2 ∧ (3/2 : ℚ) < (4 : ℚ) - 1 ∧ (⌊(3/2 : ℚ)⌋ : ℚ) ≠ 3/2 ∧
      bilinear_interpolate_point 4 4
          (fun r col => 1 * (r : ℚ) + 2 * (col : ℚ) + 3) (3/2) (3/2)
        = 1 * (3/2) + 2 * (3/2) + 3 :=
  ⟨by norm_num, by norm_num, by norm_num,
    C5_interior_linearity 4 4 1 2 3 (3/2) (3/2) (by norm_num) (by norm_num)
      (by norm_num) (by norm_num) (by norm_num) (by norm_num)⟩

/-- C6: concrete interior scenario — on the 2×2 field `[[0,1],[2,3]]`,
sampling at `(0.5, 0.5)` returns `1.5`, the average of the four corners. -/
theorem C6_concrete_half :
    bilinear_interpolate 2 2 field2x2 [1/2] [1/2] = [3/2] := by
  norm_num [bilinear_interpolate, bilinear_interpolate_point, clip, field2x2]

/-- Indexing a `zipWith` is the pointwise combination of the two indexings. -/
theorem zipWith_getElem? (f : ℚ → ℚ → ℚ) :
    ∀ (xs ys : List ℚ) (i : ℕ),
      (List.zipWith f xs ys)[i]? =
        xs[i]?.bind fun a => ys[i]?.bind fun b => some (f a b) := by
  intro xs
  induction xs with
  | nil => intro ys i; simp
  | cons x xs ih =>
    intro ys i
    cases ys with
    | nil => simp
    | cons y ys =>
      cases i with
      | zero => simp
      | succ n => simpa using ih ys n

/-- C7: batch behavior is elementwise and order-preserving — for equal-length
coordinate lists the result has the same length, and its `i`-th element is
the head of the one-point batch at `(xs[i], ys[i])`. -/
theorem C7_batch_elementwise (H W : ℕ) (image : ℕ → ℕ → ℚ)
    (xs ys : List ℚ) (h : xs.length = ys.length) :
    (bilinear_interpolate H W image xs ys).length = xs.length ∧
      ∀ i : ℕ,
        (bilinear_interpolate H W image xs ys)[i]? =
          xs[i]?.bind fun a => ys[i]?.bind fun b =>
            (bilinear_interpolate H W image [a] [b])[0]? := by
  constructor
  · simp [bilinear_interpolate, h]
  · intro i
    rw [bilinear_interpolate,
      zipWith_getElem? (bilinear_interpolate_point H W image) xs ys i]
    simp [bilinear_interpolate]

/-- C7 witness: a concrete two-point batch on the 2×2 field. -/
theorem C7_batch_elementwise_witness :
    ([(1 : ℚ)/2, 10].length = [(1 : ℚ)/2, 0].length) ∧
      ((bilinear_interpolate 2 2 field2x2 [1/2, 10] [1/2, 0]).length =
          [(1 : ℚ)/2, 10].length ∧
        ∀ i : ℕ,
          (bilinear_interpolate 2 2 field2x2 [1/2, 10] [1/2, 0])[i]? =
            [(1 : ℚ)/2, 10][i]?.bind fun a => [(1 : ℚ)/2, 0][i]?.bind fun b =>
              (bilinear_interpolate 2 2 field2x2 [a] [b])[0]?) :=
  ⟨by simp, C7_batch_elementwise 2 2 field2x2 [1/2, 10] [1/2, 0] (by simp)⟩

/-- C8: the sampler is pure — running it returns the store unchanged (no
mutation of the field or the coordinate lists, no I/O), and its output is the
function `bilinear_interpolate` of `(field, xs, ys)` alone, so two calls on
equal inputs return equal outputs. -/
theorem C8_pure (env : SamplerEnv) :
    (bilinear_interpolate_run env).1 = env ∧
      (bilinear_interpolate_run env).2 =
        bilinear_interpolate env.H env.W env.image env.xs env.ys :=
  ⟨rfl, rfl⟩

/-- One step of `SelectPoints.__call__` preserves the invariant. -/
theorem SelectPoints_call_inv (axId npoints : ℕ) (s : SPState)
    (e : ClickEvent) (h : SPInv npoints s) :
    SPInv npoints (SelectPoints_call axId npoints s e) := by
  obtain ⟨h1, h2⟩ := h
  unfold SelectPoints_call
  by_cases hc : s.connected = false
  · simpa [hc] using ⟨h1, h2⟩
  · have hct : s.connected = true := by
      cases hcb : s.connected
      · exact absurd hcb hc
      · rfl
    have hlt : s.xs.length < npoints := h2 hct
    by_cases hax : e.inaxes ≠ axId
    · simpa [hc, hax] using ⟨h1, h2⟩
    · by_cases hfull : npoints ≤ s.xs.length + 1
      · simp only [SPInv, hc, hax, hfull, if_false, if_true, if_pos,
          List.length_append, List.length_cons, List.length_nil]
        constructor
        · simp
          omega
        · intro hcontra
          simp at hcontra
      · simp only [SPInv, hc, hax, hfull, if_false, if_pos,
          List.length_append, List.length_cons, List.length_nil]
        constructor
        · simp
          omega
        · intro _
          simp
          omega

/-- The invariant holds in every reachable state when the target is at least
one point. -/
theorem SelectPoints_run_inv (axId npoints : ℕ) (hN : 1 ≤ npoints)
    (events : List ClickEvent) :
    SPInv npoints (SelectPoints_run axId npoints events) := by
  have h0 : SPInv npoints SelectPoints_init := by
    constructor
    · simp [SelectPoints_init]
    · intro _
      simpa [SelectPoints_init] using hN
  unfold SelectPoints_run
  suffices hstep : ∀ (s : SPState), SPInv npoints s →
      SPInv npoints (events.foldl (SelectPoints_call axId npoints) s) from
    hstep _ h0
  induction events with
  | nil => intro s hs; simpa using hs
  | cons e es ih =>
    intro s hs
    simpa using ih _ (SelectPoints_call_inv axId npoints s e hs)

/-- Once the handler is disconnected, no event changes the state. -/
theorem SelectPoints_call_disconnected (axId npoints : ℕ) (s : SPState)
    (e : ClickEvent) (h : s.connected = false) :
    SelectPoints_call axId npoints s e = s := by
  simp [SelectPoints_call, h]

/-- C9: the point picker stops listening once its target count is reached —
for every target `npoints ≥ 1` and every sequence of click events, the
recorded count never exceeds `npoints`, and once it equals `npoints` the
handler has disconnected and every further event leaves the state (and in
particular the recorded points) unchanged. -/
theorem C9_stops_at_target (axId npoints : ℕ) (events : List ClickEvent)
    (hN : 1 ≤ npoints) :
    (SelectPoints_run axId npoints events).xs.length ≤ npoints ∧
      ((SelectPoints_run axId npoints events).xs.length = npoints →
        (SelectPoints_run axId npoints events).connected = false ∧
        ∀ e : ClickEvent,
          SelectPoints_call axId npoints
              (SelectPoints_run axId npoints events) e =
            SelectPoints_run axId npoints events) := by
  obtain ⟨h1, h2⟩ := SelectPoints_run_inv axId npoints hN events
  refine ⟨h1, fun hfull => ?_⟩
  have hdisc : (SelectPoints_run axId npoints events).connected = false := by
    cases hcb : (SelectPoints_run axId npoints events).connected
    · rfl
    · exact absurd (h2 hcb) (by omega)
  exact ⟨hdisc, fun e =>
    SelectPoints_call_disconnected axId npoints _ e hdisc⟩

/-- C9 witness: target `npoints = 1` with two in-axes clicks — the first
click is recorded and disconnects the handler; the count stays at `1`. -/
theorem C9_stops_at_target_witness :
    1 ≤ 1 ∧
      ((SelectPoints_run 0 1 [⟨0, 1, 2⟩, ⟨0, 3, 4⟩]).xs.length ≤ 1 ∧
        ((SelectPoints_run 0 1 [⟨0, 1, 2⟩, ⟨0, 3, 4⟩]).xs.length = 1 →
          (SelectPoints_run 0 1 [⟨0, 1, 2⟩, ⟨0, 3, 4⟩]).connected = false ∧
          ∀ e : ClickEvent,
            SelectPoints_call 0 1 (SelectPoints_run 0 1 [⟨0, 1, 2⟩, ⟨0, 3, 4⟩])
                e =
              SelectPoints_run 0 1 [⟨0, 1, 2⟩, ⟨0, 3, 4⟩])) :=
  ⟨le_refl 1, C9_stops_at_target 0 1 [⟨0, 1, 2⟩, ⟨0, 3, 4⟩] (le_refl 1)⟩

/-- C10: out-of-axis clicks are dropped atomically — for every state and
every event whose `inaxes` is not the instance's axes, the handler returns
with the entire state (`xs`, `ys`, connection status) exactly unchanged. -/
theorem C10_out_of_axes_dropped (axId npoints : ℕ) (s : SPState)
    (e : ClickEvent) (h : e.inaxes ≠ axId) :
    SelectPoints_call axId npoints s e = s := by
  unfold SelectPoints_call
  by_cases hc : s.connected = false
  · simp [hc]
  · simp [hc, h]

/-- C10 witness: a click in axes `5` delivered to an instance on axes `0`
leaves a mid-collection state untouched. -/
theorem C10_out_of_axes_dropped_witness :
    (5 : ℕ) ≠ 0 ∧
      SelectPoints_call 0 3 ⟨[1], [2], true⟩ ⟨5, 7, 8⟩ = ⟨[1], [2], true⟩ :=
  ⟨by decide, C10_out_of_axes_dropped 0 3 ⟨[1], [2], true⟩ ⟨5, 7, 8⟩
    (by decide)⟩
